import Mathlib

/-!
Verification of the drill-down heat-map program (`heatmap.py`).

The development shallowly embeds the program's two halves:

* the offline data pipeline — cleaning of raw spreadsheet rows, the
  code-to-name and name-to-region mappings, per-region and per-province
  counts, count markers, and the per-province heat data; and
* the browser-side layer state machine — the Leaflet map's set of attached
  overlay layers, the province polygon styles, the viewport, and the
  `currentRegion` variable, transformed by the region-click, province-click
  and back-button handlers that the script installs.

Rationals stand in for the Python floats (all constants in the source are
exact decimals), `Option` stands in for null/NaN/undefined, and a
`Finset` of layer identifiers stands for the set of overlays currently
attached to the Leaflet map.
-/

namespace HeatMap

/-! ## Settings / mappings (heatmap.py lines 15-49) -/

/-- Source constant `CODE_TO_NAME`: province code to full name. -/
def CODE_TO_NAME : List (String × String) :=
  [("AB", "Alberta"),
   ("BC", "British Columbia"),
   ("MB", "Manitoba"),
   ("NB", "New Brunswick"),
   ("NL", "Newfoundland and Labrador"),
   ("NS", "Nova Scotia"),
   ("NT", "Northwest Territories"),
   ("NU", "Nunavut"),
   ("ON", "Ontario"),
   ("PE", "Prince Edward Island"),
   ("QC", "Quebec"),
   ("SK", "Saskatchewan"),
   ("YK", "Yukon")]

/-- Source constant `PURPLE`: full province names of the purple region. -/
def PURPLE : List String :=
  ["Nunavut", "Northwest Territories", "Yukon", "British Columbia"]

/-- Source constant `GREEN`: full province names of the green region. -/
def GREEN : List String :=
  ["Ontario", "Manitoba", "Saskatchewan", "Alberta", "Quebec"]

/-- Source constant `ORANGE`: full province names of the orange region. -/
def ORANGE : List String :=
  ["Newfoundland and Labrador", "Prince Edward Island", "Nova Scotia", "New Brunswick"]

/-- The three region names (the keys of the source's `REGION_COLOR`). -/
def REGIONS : List String := ["Purple Region", "Green Region", "Orange Region"]

/-- Source constant `REGION_COLOR`. -/
def REGION_COLOR : List (String × String) :=
  [("Purple Region", "purple"), ("Green Region", "green"), ("Orange Region", "orange")]

/-- Source function `province_to_region`: full province name to region name,
`none` when the name is in no region set. -/
def province_to_region (prov_name : String) : Option String :=
  if prov_name ∈ PURPLE then some "Purple Region"
  else if prov_name ∈ GREEN then some "Green Region"
  else if prov_name ∈ ORANGE then some "Orange Region"
  else none

/-! ## Raw site records and the cleaning pipeline (heatmap.py lines 81-110) -/

/-- One raw spreadsheet row, after the excluded ingestion stage has read it.
`latitude`/`longitude` are `none` for NaN cells; `category` is the result of
`pd.to_numeric(..., errors="coerce")`, so `none` stands for a missing or
non-numeric category cell. -/
structure RawRecord where
  siteUser : String
  latitude : Option ℚ
  longitude : Option ℚ
  category : Option ℚ
  province : String
deriving DecidableEq

/-- Source constant `valid_users`. -/
def valid_users : List String := ["DFO", "Shared-DFO", "SCH"]

/-- The pandas `str.strip()` operation: drop leading and trailing
whitespace, written over the character list so it is executable. -/
def pyStrip (s : String) : String :=
  ⟨((s.data.dropWhile Char.isWhitespace).reverse.dropWhile Char.isWhitespace).reverse⟩

/-- The pandas `str.upper()` operation: uppercase every character. -/
def pyUpper (s : String) : String :=
  ⟨s.data.map Char.toUpper⟩

/-- Source: `df["ProvCode"] = df["Province"].astype(str).str.strip().str.upper()`
followed by the `OC` to `BC` replacement. -/
def normCode (s : String) : String :=
  let c := pyUpper (pyStrip s)
  if c = "OC" then "BC" else c

/-- One cleaned row of the dataframe after lines 87-110: the original record
together with the derived columns (normalized category, full province name,
region). -/
structure CleanRow where
  record : RawRecord
  lat : ℚ
  lon : ℚ
  category : ℚ
  provinceName : String
  region : String
deriving DecidableEq

/-- The full row-wise cleaning pipeline of heatmap.py lines 89-110: keep the
row only when the site user is valid, latitude/longitude are present and in
the geographic bounding box, the province code resolves through
`CODE_TO_NAME`, and the province name resolves to a region; the category is
normalized with `fillna(0)`. -/
def cleanRow (r : RawRecord) : Option CleanRow :=
  if r.siteUser ∈ valid_users then
    r.latitude.bind fun lat =>
    r.longitude.bind fun lon =>
    if 417/10 ≤ lat ∧ lat ≤ 831/10 ∧ -141 ≤ lon ∧ lon ≤ -(263/5) then
      (CODE_TO_NAME.lookup (normCode r.province)).bind fun name =>
      (province_to_region name).bind fun reg =>
      some { record := r, lat := lat, lon := lon,
             category := r.category.getD 0,
             provinceName := name, region := reg }
    else none
  else none

/-- The cleaned dataframe: the cleaning pipeline applied to every raw row. -/
def cleanRows (raw : List RawRecord) : List CleanRow :=
  raw.filterMap cleanRow

/-! ## Counts (heatmap.py lines 145-146) -/

/-- Source: `counts_region = df.groupby("region").size().to_dict()` read
through `.get(reg, 0)` — the number of cleaned rows in the region. -/
def counts_region (rows : List CleanRow) (reg : String) : ℕ :=
  rows.countP (fun row => row.region == reg)

/-- Source: `counts_prov = df.groupby(["region", "province_name"]).size().to_dict()`
read through `.get((reg, prov_name), 0)`. -/
def counts_prov (rows : List CleanRow) (reg prov : String) : ℕ :=
  rows.countP (fun row => row.region == reg && row.provinceName == prov)

/-! ## Boundary data (heatmap.py lines 126-139) -/

/-- One feature of `prov_gdf`: a boundary polygon's `name` property together
with the derived `region` property. -/
structure BoundaryProvince where
  name : String
  region : String
deriving DecidableEq

/-- Source lines 129-134: strip every feature's name, derive its region with
`province_to_region`, and drop features whose region is `none`. -/
def prov_gdf (boundaryNames : List String) : List BoundaryProvince :=
  boundaryNames.filterMap (fun n =>
    (province_to_region (pyStrip n)).map (fun reg => ⟨pyStrip n, reg⟩))

/-- Source line 136: `regions_gdf = prov_gdf.dissolve(by="region", ...)` —
the distinct regions present in the boundary data. -/
def regionsOf (provs : List BoundaryProvince) : List String :=
  (provs.map (fun p => p.region)).dedup

/-! ## Count marker layers (heatmap.py lines 164-195) -/

/-- Source loop lines 168-178: one region count marker per `regions_gdf`
row, displaying `counts_region.get(reg, 0)`. Geometry (the centroid) is
outside the embedding; the marker is its region name and displayed count. -/
def region_count_markers (provs : List BoundaryProvince) (rows : List CleanRow) :
    List (String × ℕ) :=
  (regionsOf provs).map (fun reg => (reg, counts_region rows reg))

/-- Source loop lines 184-195: one province count marker per `prov_gdf` row,
displaying `counts_prov.get((reg, prov_name), 0)`. -/
def prov_count_markers (provs : List BoundaryProvince) (rows : List CleanRow) :
    List (String × String × ℕ) :=
  provs.map (fun p => (p.name, p.region, counts_prov rows p.region p.name))

/-! ## Heat data and marker clusters (heatmap.py lines 242-273) -/

/-- The weight expression of line 249:
`1 if row["Category"] == 1 else 0.2`. -/
def heatWeight (category : ℚ) : ℚ :=
  if category = 1 then 1 else 1/5

/-- The rows of the cleaned dataframe grouped under one province
(`df.groupby("province_name")` membership). -/
def siteRows (rows : List CleanRow) (prov : String) : List CleanRow :=
  rows.filter (fun row => row.provinceName == prov)

/-- Source lines 248-251: the `heat_data` list for one province —
`[lat, lon, weight]` per row of that province's group. -/
def heat_data (rows : List CleanRow) (prov : String) : List (ℚ × ℚ × ℚ) :=
  (siteRows rows prov).map (fun row => (row.lat, row.lon, heatWeight row.category))

/-- Source lines 262-273: the marker-cluster markers for one province, one
per row of that province's group, at the row's coordinates. -/
def cluster_markers (rows : List CleanRow) (prov : String) : List (ℚ × ℚ) :=
  (siteRows rows prov).map (fun row => (row.lat, row.lon))

/-! ## The Leaflet map model (heatmap.py lines 116-120, 152-236, 291-438)

The overlays the script creates and manipulates are identified by stable
ids. `region_counts_layer` is added with `show=True`; the three province
count layers and every per-province site bundle are created with
`show=False`; the two GeoJson polygon layers are always attached. -/

/-- Identifiers of the overlay layers the drill-down logic manipulates. -/
inductive LayerId where
  | regionCounts : LayerId
  | provCounts : String → LayerId
  | regionPolygons : LayerId
  | provPolygons : LayerId
  | provSite : String → LayerId
deriving DecidableEq

/-- The Leaflet path style of one province polygon, as produced by
`province_poly_style` and mutated by `setStyle` (which merges the given
options, leaving the others unchanged). -/
structure PolyStyle where
  fillColor : String
  color : String
  weight : ℚ
  fillOpacity : ℚ
deriving DecidableEq

/-- The map viewport: either an explicit center/zoom (from `setView`) or the
bounds of a clicked feature (from `fitBounds`). -/
inductive Viewport where
  | view : ℚ → ℚ → ℕ → Viewport
  | regionBounds : String → Viewport
  | provinceBounds : String → Viewport
deriving DecidableEq

/-- The mutable browser-side state the installed script manipulates: the set
of overlays attached to the map, each province polygon's style (keyed by the
feature's `name` property), the viewport, and the script's `currentRegion`
variable. -/
structure MapState where
  attached : Finset LayerId
  provStyles : String → PolyStyle
  viewport : Viewport
  currentRegion : Option String

/-- The static configuration of one generated page: which `window` globals
hold a layer handle (`populated`; in the finished page all do, but handles
are read through `window[name]` and may be absent), the keys of
`provSiteMap` (provinces that got a site bundle, i.e. had at least one
cleaned row), the province polygon features, and the startup center
coordinates (`START_ZOOM` is the literal 4). -/
structure MapConfig where
  populated : LayerId → Bool
  siteProvs : List String
  provs : List BoundaryProvince
  centerLat : ℚ
  centerLon : ℚ

/-- Reading a layer handle out of `window`: `some` exactly when the global
has been populated. -/
def lookupLayer (cfg : MapConfig) (l : LayerId) : Option LayerId :=
  if cfg.populated l then some l else none

/-- Source `removeLayerIfPresent` (lines 297-301): a null/undefined handle
is a no-op; otherwise the layer is removed when attached. Acting on the
attached-overlay set of the map. -/
def removeLayerIfPresent (layerObj : Option LayerId) (attached : Finset LayerId) :
    Finset LayerId :=
  match layerObj with
  | none => attached
  | some l => attached.erase l

/-- Source `addLayerIfMissing` (lines 303-307): a null/undefined handle is a
no-op; otherwise the layer is added when not yet attached. -/
def addLayerIfMissing (layerObj : Option LayerId) (attached : Finset LayerId) :
    Finset LayerId :=
  match layerObj with
  | none => attached
  | some l => insert l attached

/-- Source `hideAllProvinceSiteLayers` (lines 309-315): remove, for every
key of `provSiteMap`, the site bundle handle found in `window`. -/
def hideAllProvinceSiteLayers (cfg : MapConfig) (attached : Finset LayerId) :
    Finset LayerId :=
  cfg.siteProvs.foldl
    (fun acc prov => removeLayerIfPresent (lookupLayer cfg (.provSite prov)) acc) attached

/-- The handle `window[provSiteMap[provName]]` of line 319-320: `none` when
the province has no entry in `provSiteMap` or the global is unpopulated. -/
def siteLayerObj (cfg : MapConfig) (prov : String) : Option LayerId :=
  if prov ∈ cfg.siteProvs then lookupLayer cfg (.provSite prov) else none

/-- Source `showProvinceSiteLayer` (lines 317-322): hide every site bundle,
then add the requested province's bundle. -/
def showProvinceSiteLayer (cfg : MapConfig) (prov : String) (attached : Finset LayerId) :
    Finset LayerId :=
  addLayerIfMissing (siteLayerObj cfg prov) (hideAllProvinceSiteLayers cfg attached)

/-- Source `hideAllProvinceCounts` (lines 336-340): remove the three
province count layers. -/
def hideAllProvinceCounts (cfg : MapConfig) (attached : Finset LayerId) :
    Finset LayerId :=
  removeLayerIfPresent (lookupLayer cfg (.provCounts "Orange Region"))
    (removeLayerIfPresent (lookupLayer cfg (.provCounts "Green Region"))
      (removeLayerIfPresent (lookupLayer cfg (.provCounts "Purple Region")) attached))

/-- Source `showProvinceCountsForRegion` (lines 342-347): hide all three
province count layers, then add the one whose region name matches. -/
def showProvinceCountsForRegion (cfg : MapConfig) (targetRegion : String)
    (attached : Finset LayerId) : Finset LayerId :=
  let a := hideAllProvinceCounts cfg attached
  let a := if targetRegion = "Purple Region" then
    addLayerIfMissing (lookupLayer cfg (.provCounts "Purple Region")) a else a
  let a := if targetRegion = "Green Region" then
    addLayerIfMissing (lookupLayer cfg (.provCounts "Green Region")) a else a
  if targetRegion = "Orange Region" then
    addLayerIfMissing (lookupLayer cfg (.provCounts "Orange Region")) a else a

/-- Source `setProvincePolygonVisibility` (lines 325-334): every province
polygon layer gets `setStyle` with fill opacity 0.35 and stroke weight 1
when its `region` property equals the target region, otherwise fill opacity
0 and weight 0; `setStyle` merges, keeping the colors. Features are looked
up by their `name` property. -/
def setProvincePolygonVisibility (provs : List BoundaryProvince) (targetRegion : String)
    (s : MapState) : MapState :=
  { s with provStyles := fun n =>
      match provs.find? (fun p => p.name == n) with
      | some p =>
        let st := s.provStyles n
        { st with fillOpacity := if p.region = targetRegion then 35/100 else 0,
                  weight := if p.region = targetRegion then 1 else 0 }
      | none => s.provStyles n }

/-- Source `province_poly_style` (lines 201-209): the initial style of a
province polygon, fill color from `REGION_COLOR` (default gray), black
1-px stroke, fill opacity 0. -/
def province_poly_style (region : String) : PolyStyle :=
  { fillColor := (REGION_COLOR.lookup region).getD "gray",
    color := "black", weight := 1, fillOpacity := 0 }

/-- The three navigation events the script listens for. -/
inductive NavEvent where
  | regionClick : String → NavEvent
  | provinceClick : BoundaryProvince → NavEvent
  | backClick : NavEvent

/-- The state of the freshly generated page: region counts shown
(`show=True`), the two GeoJson polygon layers attached, province counts and
site bundles hidden (`show=False`), every province polygon styled by
`province_poly_style`, the viewport at the startup center with
`START_ZOOM = 4`, and `currentRegion = null`. -/
def initState (cfg : MapConfig) : MapState :=
  { attached := {LayerId.regionCounts, LayerId.regionPolygons, LayerId.provPolygons},
    provStyles := fun n =>
      match cfg.provs.find? (fun p => p.name == n) with
      | some p => province_poly_style p.region
      | none => province_poly_style "",
    viewport := .view cfg.centerLat cfg.centerLon 4,
    currentRegion := none }

/-- One navigation event handled to completion, exactly in the source's
statement order (lines 364-382 back, 390-409 region click, 413-432 province
click). Note the region click handler does not assign `currentRegion`. -/
def step (cfg : MapConfig) (e : NavEvent) (s : MapState) : MapState :=
  match e with
  | .regionClick r =>
    let s := { s with viewport := .regionBounds r }
    let s := { s with attached := removeLayerIfPresent (lookupLayer cfg .regionCounts) s.attached }
    let s := { s with attached := showProvinceCountsForRegion cfg r s.attached }
    let s := setProvincePolygonVisibility cfg.provs r s
    { s with attached := hideAllProvinceSiteLayers cfg s.attached }
  | .provinceClick p =>
    let s := { s with currentRegion := some p.region }
    let s := { s with attached := removeLayerIfPresent (lookupLayer cfg .regionCounts) s.attached }
    let s := { s with attached := showProvinceCountsForRegion cfg p.region s.attached }
    let s := setProvincePolygonVisibility cfg.provs p.region s
    let s := { s with viewport := .provinceBounds p.name }
    { s with attached := showProvinceSiteLayer cfg p.name s.attached }
  | .backClick =>
    let s := { s with currentRegion := none }
    let s := { s with attached := addLayerIfMissing (lookupLayer cfg .regionCounts) s.attached }
    let s := { s with attached := hideAllProvinceCounts cfg s.attached }
    let s := setProvincePolygonVisibility cfg.provs "__NONE__" s
    let s := { s with attached := hideAllProvinceSiteLayers cfg s.attached }
    { s with viewport := .view cfg.centerLat cfg.centerLon 4 }

/-- A whole navigation session: the events folded over the initial state. -/
def run (cfg : MapConfig) (events : List NavEvent) : MapState :=
  events.foldl (fun s e => step cfg e s) (initState cfg)

/-! ## Membership lemmas for the layer operations -/

theorem lookupLayer_eq_some {cfg : MapConfig} {l x : LayerId} :
    lookupLayer cfg l = some x ↔ cfg.populated l = true ∧ x = l := by
  unfold lookupLayer
  split
  · rename_i h
    simp only [Option.some.injEq, h, true_and]
    exact eq_comm
  · rename_i h
    simp only [Bool.not_eq_true] at h
    simp [h]

theorem mem_removeLayerIfPresent {obj : Option LayerId} {A : Finset LayerId} {x : LayerId} :
    x ∈ removeLayerIfPresent obj A ↔ x ∈ A ∧ obj ≠ some x := by
  cases obj with
  | none => simp [removeLayerIfPresent]
  | some l =>
    simp only [removeLayerIfPresent, Finset.mem_erase, Option.some.injEq, ne_eq]
    constructor
    · rintro ⟨h1, h2⟩; exact ⟨h2, fun h => h1 h.symm⟩
    · rintro ⟨h1, h2⟩; exact ⟨fun h => h2 h.symm, h1⟩

theorem mem_addLayerIfMissing {obj : Option LayerId} {A : Finset LayerId} {x : LayerId} :
    x ∈ addLayerIfMissing obj A ↔ x ∈ A ∨ obj = some x := by
  cases obj with
  | none => simp [addLayerIfMissing]
  | some l =>
    simp only [addLayerIfMissing, Finset.mem_insert, Option.some.injEq]
    constructor
    · rintro (h | h)
      · exact Or.inr h.symm
      · exact Or.inl h
    · rintro (h | h)
      · exact Or.inr h
      · exact Or.inl h.symm

theorem mem_foldl_removeSites (cfg : MapConfig) (l : List String) (A : Finset LayerId)
    (x : LayerId) :
    x ∈ l.foldl (fun acc prov => removeLayerIfPresent (lookupLayer cfg (.provSite prov)) acc) A
      ↔ x ∈ A ∧ ∀ prov ∈ l, lookupLayer cfg (.provSite prov) ≠ some x := by
  induction l generalizing A with
  | nil => simp
  | cons a t ih =>
    rw [List.foldl_cons, ih]
    rw [mem_removeLayerIfPresent]
    constructor
    · rintro ⟨⟨h1, h2⟩, h3⟩
      refine ⟨h1, ?_⟩
      intro prov hprov
      rcases List.mem_cons.mp hprov with rfl | hp
      · exact h2
      · exact h3 prov hp
    · rintro ⟨h1, h2⟩
      exact ⟨⟨h1, h2 a (by simp)⟩, fun prov hp => h2 prov (by simp [hp])⟩

theorem mem_hideAllProvinceSiteLayers {cfg : MapConfig} {A : Finset LayerId} {x : LayerId} :
    x ∈ hideAllProvinceSiteLayers cfg A
      ↔ x ∈ A ∧ ∀ prov ∈ cfg.siteProvs, lookupLayer cfg (.provSite prov) ≠ some x := by
  exact mem_foldl_removeSites cfg cfg.siteProvs A x

theorem mem_hideAllProvinceCounts {cfg : MapConfig} {A : Finset LayerId} {x : LayerId} :
    x ∈ hideAllProvinceCounts cfg A
      ↔ x ∈ A ∧ ∀ r ∈ REGIONS, lookupLayer cfg (.provCounts r) ≠ some x := by
  unfold hideAllProvinceCounts
  rw [mem_removeLayerIfPresent, mem_removeLayerIfPresent, mem_removeLayerIfPresent]
  simp only [REGIONS, List.mem_cons, List.not_mem_nil, or_false]
  constructor
  · rintro ⟨⟨⟨h1, h2⟩, h3⟩, h4⟩
    refine ⟨h1, ?_⟩
    rintro r (rfl | rfl | rfl) <;> assumption
  · rintro ⟨h1, h2⟩
    exact ⟨⟨⟨h1, h2 _ (Or.inl rfl)⟩, h2 _ (Or.inr (Or.inl rfl))⟩, h2 _ (Or.inr (Or.inr rfl))⟩

theorem siteLayerObj_eq_some {cfg : MapConfig} {prov : String} {x : LayerId} :
    siteLayerObj cfg prov = some x
      ↔ prov ∈ cfg.siteProvs ∧ cfg.populated (.provSite prov) = true ∧ x = .provSite prov := by
  unfold siteLayerObj
  split <;> simp_all [lookupLayer_eq_some]

theorem mem_showProvinceSiteLayer {cfg : MapConfig} {prov : String} {A : Finset LayerId}
    {x : LayerId} :
    x ∈ showProvinceSiteLayer cfg prov A
      ↔ (x ∈ A ∧ ∀ q ∈ cfg.siteProvs, lookupLayer cfg (.provSite q) ≠ some x)
        ∨ siteLayerObj cfg prov = some x := by
  unfold showProvinceSiteLayer
  rw [mem_addLayerIfMissing, mem_hideAllProvinceSiteLayers]

/-! ## Projections of one step (each handler read off the let-chain) -/

theorem step_regionClick_attached (cfg : MapConfig) (r : String) (s : MapState) :
    (step cfg (.regionClick r) s).attached
      = hideAllProvinceSiteLayers cfg (showProvinceCountsForRegion cfg r
          (removeLayerIfPresent (lookupLayer cfg .regionCounts) s.attached)) := rfl

theorem step_provinceClick_attached (cfg : MapConfig) (p : BoundaryProvince) (s : MapState) :
    (step cfg (.provinceClick p) s).attached
      = showProvinceSiteLayer cfg p.name (showProvinceCountsForRegion cfg p.region
          (removeLayerIfPresent (lookupLayer cfg .regionCounts) s.attached)) := rfl

theorem step_backClick_attached (cfg : MapConfig) (s : MapState) :
    (step cfg .backClick s).attached
      = hideAllProvinceSiteLayers cfg (hideAllProvinceCounts cfg
          (addLayerIfMissing (lookupLayer cfg .regionCounts) s.attached)) := rfl

theorem step_regionClick_currentRegion (cfg : MapConfig) (r : String) (s : MapState) :
    (step cfg (.regionClick r) s).currentRegion = s.currentRegion := rfl

theorem step_provinceClick_currentRegion (cfg : MapConfig) (p : BoundaryProvince) (s : MapState) :
    (step cfg (.provinceClick p) s).currentRegion = some p.region := rfl

theorem step_backClick_currentRegion (cfg : MapConfig) (s : MapState) :
    (step cfg .backClick s).currentRegion = none := rfl

theorem step_regionClick_viewport (cfg : MapConfig) (r : String) (s : MapState) :
    (step cfg (.regionClick r) s).viewport = .regionBounds r := rfl

theorem step_provinceClick_viewport (cfg : MapConfig) (p : BoundaryProvince) (s : MapState) :
    (step cfg (.provinceClick p) s).viewport = .provinceBounds p.name := rfl

theorem step_backClick_viewport (cfg : MapConfig) (s : MapState) :
    (step cfg .backClick s).viewport = .view cfg.centerLat cfg.centerLon 4 := rfl

theorem step_regionClick_provStyles (cfg : MapConfig) (r : String) (s : MapState) :
    (step cfg (.regionClick r) s).provStyles
      = (setProvincePolygonVisibility cfg.provs r s).provStyles := rfl

theorem step_provinceClick_provStyles (cfg : MapConfig) (p : BoundaryProvince) (s : MapState) :
    (step cfg (.provinceClick p) s).provStyles
      = (setProvincePolygonVisibility cfg.provs p.region s).provStyles := rfl

theorem step_backClick_provStyles (cfg : MapConfig) (s : MapState) :
    (step cfg .backClick s).provStyles
      = (setProvincePolygonVisibility cfg.provs "__NONE__" s).provStyles := rfl

/-! ## Non-interference: the count operations never touch site bundles -/

theorem provSite_mem_showProvinceCountsForRegion {cfg : MapConfig} {tr : String}
    {A : Finset LayerId} {p : String} :
    LayerId.provSite p ∈ showProvinceCountsForRegion cfg tr A ↔ LayerId.provSite p ∈ A := by
  unfold showProvinceCountsForRegion
  by_cases h1 : tr = "Purple Region" <;> by_cases h2 : tr = "Green Region" <;>
    by_cases h3 : tr = "Orange Region" <;>
    simp_all [mem_addLayerIfMissing, mem_hideAllProvinceCounts, lookupLayer_eq_some, REGIONS]

theorem provSite_mem_hideAllProvinceCounts {cfg : MapConfig} {A : Finset LayerId} {p : String} :
    LayerId.provSite p ∈ hideAllProvinceCounts cfg A ↔ LayerId.provSite p ∈ A := by
  simp [mem_hideAllProvinceCounts, lookupLayer_eq_some]

/-! ## The site-bundle invariant: every attached site bundle has an entry in
`provSiteMap` and a populated `window` global, and there is at most one. -/

/-- Invariant of reachable map states: any attached per-province site bundle
is one the page actually created (its province is a key of `provSiteMap`
and its global is populated). -/
def SiteInv (cfg : MapConfig) (A : Finset LayerId) : Prop :=
  ∀ p, LayerId.provSite p ∈ A → p ∈ cfg.siteProvs ∧ cfg.populated (.provSite p) = true

theorem siteInv_init (cfg : MapConfig) : SiteInv cfg (initState cfg).attached := by
  intro p hp
  simp [initState] at hp

theorem no_sites_after_hideAll {cfg : MapConfig} {A : Finset LayerId}
    (h : SiteInv cfg A) (p : String) :
    LayerId.provSite p ∉ hideAllProvinceSiteLayers cfg A := by
  intro hp
  rw [mem_hideAllProvinceSiteLayers] at hp
  obtain ⟨hpA, hall⟩ := hp
  obtain ⟨hmem, hpop⟩ := h p hpA
  exact hall p hmem (lookupLayer_eq_some.mpr ⟨hpop, rfl⟩)

theorem sites_after_regionClick {cfg : MapConfig} {r : String} {s : MapState}
    (h : SiteInv cfg s.attached) (p : String) :
    LayerId.provSite p ∉ (step cfg (.regionClick r) s).attached := by
  rw [step_regionClick_attached]
  apply no_sites_after_hideAll
  intro q hq
  rw [provSite_mem_showProvinceCountsForRegion, mem_removeLayerIfPresent] at hq
  exact h q hq.1

theorem sites_after_backClick {cfg : MapConfig} {s : MapState}
    (h : SiteInv cfg s.attached) (p : String) :
    LayerId.provSite p ∉ (step cfg .backClick s).attached := by
  rw [step_backClick_attached]
  apply no_sites_after_hideAll
  intro q hq
  rw [provSite_mem_hideAllProvinceCounts, mem_addLayerIfMissing] at hq
  rcases hq with hq | hq
  · exact h q hq
  · rw [lookupLayer_eq_some] at hq
    exact absurd hq.2 (by simp)

theorem sites_after_provinceClick {cfg : MapConfig} {p : BoundaryProvince} {s : MapState}
    (h : SiteInv cfg s.attached) (q : String)
    (hq : LayerId.provSite q ∈ (step cfg (.provinceClick p) s).attached) :
    q = p.name ∧ p.name ∈ cfg.siteProvs ∧ cfg.populated (.provSite p.name) = true := by
  rw [step_provinceClick_attached, mem_showProvinceSiteLayer] at hq
  rcases hq with ⟨hqA, hall⟩ | hobj
  · exfalso
    rw [provSite_mem_showProvinceCountsForRegion, mem_removeLayerIfPresent] at hqA
    obtain ⟨hmem, hpop⟩ := h q hqA.1
    exact hall q hmem (lookupLayer_eq_some.mpr ⟨hpop, rfl⟩)
  · rw [siteLayerObj_eq_some] at hobj
    obtain ⟨h1, h2, h3⟩ := hobj
    simp only [LayerId.provSite.injEq] at h3
    exact ⟨h3, h1, h2⟩

theorem step_siteInv {cfg : MapConfig} (e : NavEvent) (s : MapState)
    (h : SiteInv cfg s.attached) : SiteInv cfg (step cfg e s).attached := by
  cases e with
  | regionClick r => exact fun p hp => absurd hp (sites_after_regionClick h p)
  | backClick => exact fun p hp => absurd hp (sites_after_backClick h p)
  | provinceClick p =>
    intro q hq
    obtain ⟨rfl, h2, h3⟩ := sites_after_provinceClick h q hq
    exact ⟨h2, h3⟩

theorem run_siteInv (cfg : MapConfig) (events : List NavEvent) :
    SiteInv cfg (run cfg events).attached := by
  suffices h : ∀ (l : List NavEvent) (s : MapState), SiteInv cfg s.attached →
      SiteInv cfg (l.foldl (fun s e => step cfg e s) s).attached by
    exact h events (initState cfg) (siteInv_init cfg)
  intro l
  induction l with
  | nil => exact fun s hs => hs
  | cons e t ih => exact fun s hs => ih _ (step_siteInv e s hs)

theorem run_concat (cfg : MapConfig) (l : List NavEvent) (e : NavEvent) :
    run cfg (l ++ [e]) = step cfg e (run cfg l) := by
  simp [run, List.foldl_append]

/-! ## Claim C1 -/

/-- C1: for every sequence of navigation events (region-polygon clicks,
province-polygon clicks, back-button clicks) starting from the initial map
state, at most one province's site+heat bundle is attached to the map after
each event completes: any two attached site bundles are the same one. -/
theorem site_bundle_mutual_exclusion (cfg : MapConfig) (events : List NavEvent) (p q : String)
    (hp : LayerId.provSite p ∈ (run cfg events).attached)
    (hq : LayerId.provSite q ∈ (run cfg events).attached) : p = q := by
  rcases List.eq_nil_or_concat events with rfl | ⟨l, e, rfl⟩
  · exfalso
    simp only [run, List.foldl_nil] at hp
    simp [initState] at hp
  · rw [List.concat_eq_append, run_concat] at hp hq
    have hinv := run_siteInv cfg l
    cases e with
    | regionClick r => exact absurd hp (sites_after_regionClick hinv p)
    | backClick => exact absurd hp (sites_after_backClick hinv p)
    | provinceClick pr =>
      obtain ⟨rfl, -, -⟩ := sites_after_provinceClick hinv p hp
      obtain ⟨rfl, -, -⟩ := sites_after_provinceClick hinv q hq
      rfl

/-- A concrete page configuration used by the witnesses: one province
polygon (Ontario, in the green region), one site bundle, every `window`
global populated. -/
def cfgX : MapConfig :=
  { populated := fun _ => true,
    siteProvs := ["Ontario"],
    provs := [⟨"Ontario", "Green Region"⟩],
    centerLat := 60,
    centerLon := -95 }

theorem site_bundle_mutual_exclusion_witness :
    "Ontario" = "Ontario" :=
  site_bundle_mutual_exclusion cfgX [.provinceClick ⟨"Ontario", "Green Region"⟩]
    "Ontario" "Ontario" (by decide) (by decide)

/-! ## Further membership characterizations -/

theorem mem_showProvinceCountsForRegion {cfg : MapConfig} {tr : String}
    {A : Finset LayerId} {x : LayerId} :
    x ∈ showProvinceCountsForRegion cfg tr A ↔
      (x ∈ A ∧ ∀ r ∈ REGIONS, lookupLayer cfg (.provCounts r) ≠ some x)
      ∨ (tr ∈ REGIONS ∧ lookupLayer cfg (.provCounts tr) = some x) := by
  unfold showProvinceCountsForRegion
  by_cases h1 : tr = "Purple Region" <;> by_cases h2 : tr = "Green Region" <;>
    by_cases h3 : tr = "Orange Region" <;>
    simp_all [mem_addLayerIfMissing, mem_hideAllProvinceCounts, REGIONS]

theorem nonSite_mem_hideAllProvinceSiteLayers {cfg : MapConfig} {A : Finset LayerId}
    {x : LayerId} (hx : ∀ p, x ≠ LayerId.provSite p) :
    x ∈ hideAllProvinceSiteLayers cfg A ↔ x ∈ A := by
  rw [mem_hideAllProvinceSiteLayers]
  constructor
  · exact fun h => h.1
  · intro h
    refine ⟨h, fun prov _ hl => ?_⟩
    rw [lookupLayer_eq_some] at hl
    exact hx prov hl.2

theorem nonSite_mem_showProvinceSiteLayer {cfg : MapConfig} {prov : String}
    {A : Finset LayerId} {x : LayerId} (hx : ∀ p, x ≠ LayerId.provSite p) :
    x ∈ showProvinceSiteLayer cfg prov A ↔ x ∈ A := by
  unfold showProvinceSiteLayer
  rw [mem_addLayerIfMissing, nonSite_mem_hideAllProvinceSiteLayers hx]
  constructor
  · rintro (h | h)
    · exact h
    · rw [siteLayerObj_eq_some] at h
      exact absurd h.2.2 (hx prov)
  · exact Or.inl

theorem find_name {provs : List BoundaryProvince}
    (hnd : (provs.map (fun p => p.name)).Nodup)
    {q : BoundaryProvince} (hq : q ∈ provs) :
    provs.find? (fun p => p.name == q.name) = some q := by
  induction provs with
  | nil => cases hq
  | cons a t ih =>
    rw [List.map_cons, List.nodup_cons] at hnd
    rcases List.mem_cons.mp hq with rfl | hqt
    · exact List.find?_cons_of_pos _ (by simp)
    · have hne : ¬(a.name == q.name) = true := by
        simp only [beq_iff_eq]
        intro h
        exact hnd.1 (h ▸ List.mem_map_of_mem (fun p => p.name) hqt)
      rw [@List.find?_cons_of_neg BoundaryProvince (fun p => p.name == q.name) a t hne]
      exact ih hnd.2 hqt

theorem setVis_styles_of_mem {provs : List BoundaryProvince} {tr : String}
    (hnd : (provs.map (fun p => p.name)).Nodup)
    {q : BoundaryProvince} (hq : q ∈ provs) (s : MapState) :
    (setProvincePolygonVisibility provs tr s).provStyles q.name
      = { s.provStyles q.name with
          fillOpacity := if q.region = tr then 35/100 else 0,
          weight := if q.region = tr then 1 else 0 } := by
  unfold setProvincePolygonVisibility
  simp only
  rw [find_name hnd hq]

/-! ## Claim C2 -/

/-- C2: clicking province `p`'s polygon from any state that satisfies the
reachable-state site invariant sets the active region to `p`'s own region,
shows that region's province-count layer and hides the other two, hides the
region-count layer, makes the fill opacity nonzero exactly for the provinces
of `p`'s region, requests the viewport to `p`'s bounds, and attaches `p`'s
site bundle exclusively. -/
theorem province_click_effects (cfg : MapConfig) (s : MapState) (p : BoundaryProvince)
    (hpop : ∀ l, cfg.populated l = true)
    (hnd : (cfg.provs.map (fun q => q.name)).Nodup)
    (hreg : p.region ∈ REGIONS)
    (hsite : p.name ∈ cfg.siteProvs)
    (hinv : SiteInv cfg s.attached) :
    (step cfg (.provinceClick p) s).currentRegion = some p.region
    ∧ LayerId.provCounts p.region ∈ (step cfg (.provinceClick p) s).attached
    ∧ (∀ r ∈ REGIONS, r ≠ p.region →
        LayerId.provCounts r ∉ (step cfg (.provinceClick p) s).attached)
    ∧ LayerId.regionCounts ∉ (step cfg (.provinceClick p) s).attached
    ∧ (∀ q ∈ cfg.provs,
        (((step cfg (.provinceClick p) s).provStyles q.name).fillOpacity ≠ 0
          ↔ q.region = p.region))
    ∧ (step cfg (.provinceClick p) s).viewport = .provinceBounds p.name
    ∧ LayerId.provSite p.name ∈ (step cfg (.provinceClick p) s).attached
    ∧ (∀ q, LayerId.provSite q ∈ (step cfg (.provinceClick p) s).attached → q = p.name) := by
  refine ⟨rfl, ?_, ?_, ?_, ?_, rfl, ?_, ?_⟩
  · rw [step_provinceClick_attached,
      nonSite_mem_showProvinceSiteLayer (by intro q h; cases h),
      mem_showProvinceCountsForRegion]
    exact Or.inr ⟨hreg, lookupLayer_eq_some.mpr ⟨hpop _, rfl⟩⟩
  · intro r hr hne hmem
    rw [step_provinceClick_attached,
      nonSite_mem_showProvinceSiteLayer (by intro q h; cases h),
      mem_showProvinceCountsForRegion] at hmem
    rcases hmem with ⟨-, hall⟩ | ⟨-, heq⟩
    · exact hall r hr (lookupLayer_eq_some.mpr ⟨hpop _, rfl⟩)
    · rw [lookupLayer_eq_some] at heq
      exact hne (by injection heq.2)
  · intro hmem
    rw [step_provinceClick_attached,
      nonSite_mem_showProvinceSiteLayer (by intro q h; cases h),
      mem_showProvinceCountsForRegion] at hmem
    rcases hmem with ⟨hA, -⟩ | ⟨-, heq⟩
    · rw [mem_removeLayerIfPresent] at hA
      exact hA.2 (lookupLayer_eq_some.mpr ⟨hpop _, rfl⟩)
    · rw [lookupLayer_eq_some] at heq
      cases heq.2
  · intro q hq
    rw [step_provinceClick_provStyles, setVis_styles_of_mem hnd hq]
    by_cases h : q.region = p.region <;> simp [h]
  · rw [step_provinceClick_attached, mem_showProvinceSiteLayer]
    exact Or.inr (siteLayerObj_eq_some.mpr ⟨hsite, hpop _, rfl⟩)
  · exact fun q hq => (sites_after_provinceClick hinv q hq).1

theorem province_click_effects_witness :
    (step cfgX (.provinceClick ⟨"Ontario", "Green Region"⟩) (initState cfgX)).currentRegion
      = some "Green Region" :=
  (province_click_effects cfgX (initState cfgX) ⟨"Ontario", "Green Region"⟩
    (fun _ => rfl) (by decide) (by decide) (by decide) (siteInv_init cfgX)).1

/-! ## Claim C3 -/

/-- C3 counterexample: clicking the green region's polygon from the initial
(ROOT) state leaves the script's stored active-region variable at `null`;
it does not become the clicked region, because the region click handler
never assigns `currentRegion`. -/
theorem region_click_does_not_store_region :
    (step cfgX (.regionClick "Green Region") (initState cfgX)).currentRegion
      ≠ some "Green Region" := by
  decide

/-- C3 amended: after clicking region polygon `r` from any state satisfying
the reachable-state site invariant, all the layer effects of `REGION(r)` are
applied — region-count layer detached, `r`'s province-count layer attached
and the other two detached, fill opacity nonzero exactly for provinces of
`r`, viewport requested to `r`'s bounds, and no site bundle attached — but
the stored active-region variable (`currentRegion`) is left unchanged
rather than set to `r`: only province clicks and the back control assign
it, so layer visibility is not a pure function of that stored variable. -/
theorem region_click_effects (cfg : MapConfig) (s : MapState) (r : String)
    (hpop : ∀ l, cfg.populated l = true)
    (hnd : (cfg.provs.map (fun q => q.name)).Nodup)
    (hr : r ∈ REGIONS)
    (hinv : SiteInv cfg s.attached) :
    (step cfg (.regionClick r) s).currentRegion = s.currentRegion
    ∧ LayerId.regionCounts ∉ (step cfg (.regionClick r) s).attached
    ∧ LayerId.provCounts r ∈ (step cfg (.regionClick r) s).attached
    ∧ (∀ r' ∈ REGIONS, r' ≠ r → LayerId.provCounts r' ∉ (step cfg (.regionClick r) s).attached)
    ∧ (∀ q ∈ cfg.provs,
        (((step cfg (.regionClick r) s).provStyles q.name).fillOpacity ≠ 0 ↔ q.region = r))
    ∧ (step cfg (.regionClick r) s).viewport = .regionBounds r
    ∧ (∀ q, LayerId.provSite q ∉ (step cfg (.regionClick r) s).attached) := by
  refine ⟨rfl, ?_, ?_, ?_, ?_, rfl, fun q => sites_after_regionClick hinv q⟩
  · intro hmem
    rw [step_regionClick_attached,
      nonSite_mem_hideAllProvinceSiteLayers (by intro q h; cases h),
      mem_showProvinceCountsForRegion] at hmem
    rcases hmem with ⟨hA, -⟩ | ⟨-, heq⟩
    · rw [mem_removeLayerIfPresent] at hA
      exact hA.2 (lookupLayer_eq_some.mpr ⟨hpop _, rfl⟩)
    · rw [lookupLayer_eq_some] at heq
      cases heq.2
  · rw [step_regionClick_attached,
      nonSite_mem_hideAllProvinceSiteLayers (by intro q h; cases h),
      mem_showProvinceCountsForRegion]
    exact Or.inr ⟨hr, lookupLayer_eq_some.mpr ⟨hpop _, rfl⟩⟩
  · intro r' hr' hne hmem
    rw [step_regionClick_attached,
      nonSite_mem_hideAllProvinceSiteLayers (by intro q h; cases h),
      mem_showProvinceCountsForRegion] at hmem
    rcases hmem with ⟨-, hall⟩ | ⟨-, heq⟩
    · exact hall r' hr' (lookupLayer_eq_some.mpr ⟨hpop _, rfl⟩)
    · rw [lookupLayer_eq_some] at heq
      exact hne (by injection heq.2)
  · intro q hq
    rw [step_regionClick_provStyles, setVis_styles_of_mem hnd hq]
    by_cases h : q.region = r <;> simp [h]

theorem region_click_effects_witness :
    (step cfgX (.regionClick "Green Region") (initState cfgX)).currentRegion
      = (initState cfgX).currentRegion :=
  (region_click_effects cfgX (initState cfgX) "Green Region"
    (fun _ => rfl) (by decide) (by decide) (siteInv_init cfgX)).1

/-! ## Claim C4 -/

theorem setVis_styles (provs : List BoundaryProvince) (tr : String) (s : MapState) (n : String) :
    (setProvincePolygonVisibility provs tr s).provStyles n
      = match provs.find? (fun p => p.name == n) with
        | some p =>
          { s.provStyles n with fillOpacity := if p.region = tr then 35/100 else 0,
                                weight := if p.region = tr then 1 else 0 }
        | none => s.provStyles n := rfl

theorem initState_styles (cfg : MapConfig) (n : String) :
    (initState cfg).provStyles n
      = match cfg.provs.find? (fun p => p.name == n) with
        | some p => province_poly_style p.region
        | none => province_poly_style "" := rfl

/-- C4 counterexample: `ROOT`, click the green region, click back — the
province polygon style of Ontario is not the style present at
initialization: the back handler sets the stroke weight to 0 while
`province_poly_style` gave weight 1. -/
theorem back_does_not_restore_styles :
    (step cfgX .backClick (step cfgX (.regionClick "Green Region") (initState cfgX))).provStyles
        "Ontario"
      ≠ (initState cfgX).provStyles "Ontario" := by
  decide

/-- C4 amended: `ROOT`, click region `A`, click back restores exactly the
visible-layer set, the viewport, the stored region, and the fill opacity
and colors of every province polygon — but not the polygon styles in full:
the stroke weight of every province polygon is 0 afterwards, while
initialization gave every province polygon stroke weight 1. -/
theorem back_round_trip (cfg : MapConfig) (r : String)
    (hpop : ∀ l, cfg.populated l = true)
    (hnd : (cfg.provs.map (fun q => q.name)).Nodup)
    (hr : r ∈ REGIONS)
    (hprovs : ∀ q ∈ cfg.provs, q.region ∈ REGIONS) :
    (step cfg .backClick (step cfg (.regionClick r) (initState cfg))).attached
        = (initState cfg).attached
    ∧ (step cfg .backClick (step cfg (.regionClick r) (initState cfg))).viewport
        = (initState cfg).viewport
    ∧ (step cfg .backClick (step cfg (.regionClick r) (initState cfg))).currentRegion
        = (initState cfg).currentRegion
    ∧ (∀ n,
        ((step cfg .backClick (step cfg (.regionClick r) (initState cfg))).provStyles n).fillOpacity
          = ((initState cfg).provStyles n).fillOpacity
        ∧ ((step cfg .backClick (step cfg (.regionClick r) (initState cfg))).provStyles n).fillColor
          = ((initState cfg).provStyles n).fillColor
        ∧ ((step cfg .backClick (step cfg (.regionClick r) (initState cfg))).provStyles n).color
          = ((initState cfg).provStyles n).color)
    ∧ (∀ q ∈ cfg.provs,
        ((step cfg .backClick (step cfg (.regionClick r) (initState cfg))).provStyles q.name).weight
          = 0
        ∧ ((initState cfg).provStyles q.name).weight = 1) := by
  have hlook : ∀ l, lookupLayer cfg l = some l := fun l => lookupLayer_eq_some.mpr ⟨hpop l, rfl⟩
  have hinv1 : SiteInv cfg (step cfg (.regionClick r) (initState cfg)).attached :=
    step_siteInv _ _ (siteInv_init cfg)
  have hinit : ∀ x, x ∈ (initState cfg).attached
      ↔ (x = LayerId.regionCounts ∨ x = LayerId.regionPolygons ∨ x = LayerId.provPolygons) := by
    intro x
    simp [initState]
  have hs1 : ∀ x, x ∈ (step cfg (.regionClick r) (initState cfg)).attached
      ↔ (x = LayerId.regionPolygons ∨ x = LayerId.provPolygons ∨ x = LayerId.provCounts r) := by
    intro x
    rcases x with _ | str | _ | _ | str
    · rw [step_regionClick_attached]
      simp [mem_hideAllProvinceSiteLayers, mem_showProvinceCountsForRegion,
        mem_removeLayerIfPresent, hlook, hinit, hr]
    · rw [step_regionClick_attached]
      simp only [mem_hideAllProvinceSiteLayers, mem_showProvinceCountsForRegion,
        mem_removeLayerIfPresent, hlook, hinit, hr, true_and]
      simp
      exact eq_comm
    · rw [step_regionClick_attached]
      simp [mem_hideAllProvinceSiteLayers, mem_showProvinceCountsForRegion,
        mem_removeLayerIfPresent, hlook, hinit, hr]
    · rw [step_regionClick_attached]
      simp [mem_hideAllProvinceSiteLayers, mem_showProvinceCountsForRegion,
        mem_removeLayerIfPresent, hlook, hinit, hr]
    · exact iff_of_false (sites_after_regionClick (siteInv_init cfg) str) (by simp)
  have hstyles1 : ∀ n, (step cfg (.regionClick r) (initState cfg)).provStyles n
      = (setProvincePolygonVisibility cfg.provs r (initState cfg)).provStyles n :=
    fun n => rfl
  refine ⟨?_, rfl, rfl, ?_, ?_⟩
  · ext x
    rw [hinit]
    rcases x with _ | str | _ | _ | str
    · rw [step_backClick_attached]
      simp [mem_hideAllProvinceSiteLayers, mem_hideAllProvinceCounts,
        mem_addLayerIfMissing, hlook, hs1]
    · refine iff_of_false ?_ (by simp)
      intro hmem
      rw [step_backClick_attached, mem_hideAllProvinceSiteLayers] at hmem
      obtain ⟨hmem, -⟩ := hmem
      rw [mem_hideAllProvinceCounts] at hmem
      obtain ⟨hmem, hall⟩ := hmem
      rw [mem_addLayerIfMissing] at hmem
      rcases hmem with hmem | hmem
      · rw [hs1] at hmem
        rcases hmem with h | h | h
        · cases h
        · cases h
        · have heq : str = r := by injection h
          subst heq
          exact hall str hr (lookupLayer_eq_some.mpr ⟨hpop _, rfl⟩)
      · rw [hlook] at hmem
        simp at hmem
    · rw [step_backClick_attached]
      simp [mem_hideAllProvinceSiteLayers, mem_hideAllProvinceCounts,
        mem_addLayerIfMissing, hlook, hs1]
    · rw [step_backClick_attached]
      simp [mem_hideAllProvinceSiteLayers, mem_hideAllProvinceCounts,
        mem_addLayerIfMissing, hlook, hs1]
    · exact iff_of_false (sites_after_backClick hinv1 str) (by simp)
  · intro n
    rw [step_backClick_provStyles, setVis_styles, hstyles1 n, setVis_styles, initState_styles]
    rcases hfind : cfg.provs.find? (fun p => p.name == n) with - | p
    · rw [hfind]
      simp
    · have hp : p ∈ cfg.provs := List.mem_of_find?_eq_some hfind
      have hpr : p.region ∈ REGIONS := hprovs p hp
      have hne : p.region ≠ "__NONE__" := by
        simp only [REGIONS, List.mem_cons, List.not_mem_nil, or_false] at hpr
        rcases hpr with h | h | h <;> simp [h]
      rw [hfind]
      simp [hne, province_poly_style]
  · intro q hq
    have hfind := find_name hnd hq
    have hqr : q.region ∈ REGIONS := hprovs q hq
    have hne : q.region ≠ "__NONE__" := by
      simp only [REGIONS, List.mem_cons, List.not_mem_nil, or_false] at hqr
      rcases hqr with h | h | h <;> simp [h]
    constructor
    · rw [step_backClick_provStyles, setVis_styles, hfind]
      simp [hne]
    · rw [initState_styles, hfind]
      rfl

theorem back_round_trip_witness :
    (step cfgX .backClick (step cfgX (.regionClick "Green Region") (initState cfgX))).attached
      = (initState cfgX).attached :=
  (back_round_trip cfgX "Green Region" (fun _ => rfl) (by decide) (by decide)
    (by decide)).1

/-! ## Claim C8 -/

/-- C8: the show and hide operations are idempotent on the visible-layer
set, and invoking hide on an already-hidden layer (or show on an
already-shown layer) is a no-op rather than an error. -/
theorem show_hide_idempotent (obj : Option LayerId) (A : Finset LayerId) :
    removeLayerIfPresent obj (removeLayerIfPresent obj A) = removeLayerIfPresent obj A
    ∧ addLayerIfMissing obj (addLayerIfMissing obj A) = addLayerIfMissing obj A
    ∧ (∀ l, obj = some l → l ∉ A → removeLayerIfPresent obj A = A)
    ∧ (∀ l, obj = some l → l ∈ A → addLayerIfMissing obj A = A) := by
  refine ⟨?_, ?_, ?_, ?_⟩
  · cases obj <;> simp [removeLayerIfPresent, Finset.erase_idem]
  · cases obj <;> simp [addLayerIfMissing, Finset.insert_idem]
  · rintro l rfl h
    simp [removeLayerIfPresent, Finset.erase_eq_of_not_mem h]
  · rintro l rfl h
    simp [addLayerIfMissing, Finset.insert_eq_self.mpr h]

theorem show_hide_idempotent_witness :
    removeLayerIfPresent (some LayerId.regionCounts) ({LayerId.provPolygons} : Finset LayerId)
      = {LayerId.provPolygons} :=
  (show_hide_idempotent (some LayerId.regionCounts) {LayerId.provPolygons}).2.2.1
    LayerId.regionCounts rfl (by decide)

/-! ## Claim C9 -/

/-- C9: every hide/show operation, the site-bundle and count-layer helpers,
and the back-button handler are safe against layer identifiers whose
`window` handle has not been populated: each call is a no-op on the
visible-layer set (and, being total functions, none of them can throw). -/
theorem unpopulated_layers_safe (cfg : MapConfig) (s : MapState) (A : Finset LayerId)
    (hun : ∀ l, cfg.populated l = false) :
    removeLayerIfPresent none A = A
    ∧ addLayerIfMissing none A = A
    ∧ hideAllProvinceSiteLayers cfg A = A
    ∧ (∀ prov, showProvinceSiteLayer cfg prov A = A)
    ∧ hideAllProvinceCounts cfg A = A
    ∧ (∀ tr, showProvinceCountsForRegion cfg tr A = A)
    ∧ (step cfg .backClick s).attached = s.attached := by
  have hlook : ∀ l, lookupLayer cfg l = none := by
    intro l
    unfold lookupLayer
    simp [hun l]
  have hfold : ∀ (l : List String) (B : Finset LayerId),
      l.foldl (fun acc prov => removeLayerIfPresent (lookupLayer cfg (.provSite prov)) acc) B
        = B := by
    intro l
    induction l with
    | nil => intro B; rfl
    | cons a t ih =>
      intro B
      rw [List.foldl_cons, hlook]
      exact ih B
  have hhideSites : ∀ B : Finset LayerId, hideAllProvinceSiteLayers cfg B = B :=
    fun B => hfold cfg.siteProvs B
  have hhideCounts : ∀ B : Finset LayerId, hideAllProvinceCounts cfg B = B := by
    intro B
    unfold hideAllProvinceCounts
    rw [hlook, hlook, hlook]
    rfl
  have hshowCounts : ∀ (tr : String) (B : Finset LayerId),
      showProvinceCountsForRegion cfg tr B = B := by
    intro tr B
    unfold showProvinceCountsForRegion
    rw [hhideCounts]
    simp only [hlook]
    split_ifs <;> rfl
  refine ⟨rfl, rfl, hhideSites A, ?_, hhideCounts A, fun tr => hshowCounts tr A, ?_⟩
  · intro prov
    unfold showProvinceSiteLayer siteLayerObj
    rw [hhideSites]
    split
    · rw [hlook]
      rfl
    · rfl
  · rw [step_backClick_attached, hlook]
    rw [show addLayerIfMissing none s.attached = s.attached from rfl]
    rw [hhideCounts, hhideSites]

/-- A page configuration in which no `window` global has been populated,
used by the C9 witness. -/
def cfgNone : MapConfig :=
  { populated := fun _ => false,
    siteProvs := ["Ontario"],
    provs := [⟨"Ontario", "Green Region"⟩],
    centerLat := 60,
    centerLon := -95 }

theorem unpopulated_layers_safe_witness :
    (step cfgNone .backClick (initState cfgNone)).attached = (initState cfgNone).attached :=
  (unpopulated_layers_safe cfgNone (initState cfgNone) {LayerId.regionCounts}
    (fun _ => rfl)).2.2.2.2.2.2

/-! ## Claim C5: region counts versus member province counts -/

/-- The static member provinces of a region (the sets `PURPLE`, `GREEN`,
`ORANGE` keyed by the region name `province_to_region` assigns them). -/
def regionMembers (reg : String) : List String :=
  if reg = "Purple Region" then PURPLE
  else if reg = "Green Region" then GREEN
  else if reg = "Orange Region" then ORANGE
  else []

theorem green_not_purple : ∀ n ∈ GREEN, n ∉ PURPLE := by decide

theorem orange_not_purple : ∀ n ∈ ORANGE, n ∉ PURPLE := by decide

theorem orange_not_green : ∀ n ∈ ORANGE, n ∉ GREEN := by decide

theorem regionMembers_nodup (reg : String) : (regionMembers reg).Nodup := by
  unfold regionMembers
  split_ifs <;> decide

theorem mem_regionMembers_iff (reg : String) (hreg : reg ∈ REGIONS) (n : String) :
    n ∈ regionMembers reg ↔ province_to_region n = some reg := by
  have hfalse : ∀ m : String, (¬m ∈ PURPLE) → (¬m ∈ GREEN) → (¬m ∈ ORANGE) →
      province_to_region m = none := by
    intro m h1 h2 h3
    unfold province_to_region
    rw [if_neg h1, if_neg h2, if_neg h3]
  simp only [REGIONS, List.mem_cons, List.not_mem_nil, or_false] at hreg
  rcases hreg with h | h | h <;> subst h <;> unfold regionMembers
  · rw [if_pos rfl]
    constructor
    · intro hn
      unfold province_to_region
      rw [if_pos hn]
    · intro hn
      by_cases h1 : n ∈ PURPLE
      · exact h1
      · exfalso
        unfold province_to_region at hn
        rw [if_neg h1] at hn
        by_cases h2 : n ∈ GREEN
        · rw [if_pos h2] at hn
          simp at hn
        · rw [if_neg h2] at hn
          by_cases h3 : n ∈ ORANGE
          · rw [if_pos h3] at hn
            simp at hn
          · rw [if_neg h3] at hn
            cases hn
  · rw [if_neg (by simp), if_pos rfl]
    constructor
    · intro hn
      unfold province_to_region
      rw [if_neg (green_not_purple n hn), if_pos hn]
    · intro hn
      by_cases h2 : n ∈ GREEN
      · exact h2
      · exfalso
        unfold province_to_region at hn
        by_cases h1 : n ∈ PURPLE
        · rw [if_pos h1] at hn
          simp at hn
        · rw [if_neg h1, if_neg h2] at hn
          by_cases h3 : n ∈ ORANGE
          · rw [if_pos h3] at hn
            simp at hn
          · rw [if_neg h3] at hn
            cases hn
  · rw [if_neg (by simp), if_neg (by simp), if_pos rfl]
    constructor
    · intro hn
      unfold province_to_region
      rw [if_neg (orange_not_purple n hn), if_neg (orange_not_green n hn), if_pos hn]
    · intro hn
      by_cases h3 : n ∈ ORANGE
      · exact h3
      · exfalso
        unfold province_to_region at hn
        by_cases h1 : n ∈ PURPLE
        · rw [if_pos h1] at hn
          simp at hn
        · rw [if_neg h1] at hn
          by_cases h2 : n ∈ GREEN
          · rw [if_pos h2] at hn
            simp at hn
          · rw [if_neg h2, if_neg h3] at hn
            cases hn

theorem cleanRow_spec {r : RawRecord} {row : CleanRow} (h : cleanRow r = some row) :
    row.record = r ∧ row.category = r.category.getD 0
    ∧ province_to_region row.provinceName = some row.region
    ∧ CODE_TO_NAME.lookup (normCode r.province) = some row.provinceName
    ∧ r.siteUser ∈ valid_users := by
  unfold cleanRow at h
  by_cases hu : r.siteUser ∈ valid_users
  · rw [if_pos hu] at h
    simp only [Option.bind_eq_some] at h
    obtain ⟨lat, hlat, lon, hlon, h⟩ := h
    by_cases hb : 417/10 ≤ lat ∧ lat ≤ 831/10 ∧ -141 ≤ lon ∧ lon ≤ -(263/5)
    · rw [if_pos hb] at h
      simp only [Option.bind_eq_some] at h
      obtain ⟨name, hname, reg, hregion, h⟩ := h
      rw [Option.some.injEq] at h
      subst h
      exact ⟨rfl, rfl, hregion, hname, hu⟩
    · rw [if_neg hb] at h
      cases h
  · rw [if_neg hu] at h
    cases h

theorem cleanRows_region (raw : List RawRecord) :
    ∀ row ∈ cleanRows raw, province_to_region row.provinceName = some row.region := by
  intro row hrow
  rw [cleanRows, List.mem_filterMap] at hrow
  obtain ⟨r, -, hr⟩ := hrow
  exact (cleanRow_spec hr).2.2.1

theorem sum_map_add_nat {α : Type} (l : List α) (f g : α → ℕ) :
    (l.map (fun x => f x + g x)).sum = (l.map f).sum + (l.map g).sum := by
  induction l with
  | nil => rfl
  | cons a t ih =>
    simp only [List.map_cons, List.sum_cons, ih]
    omega

theorem sum_indicator_not_mem (l : List String) (x : String) (h : x ∉ l) :
    (l.map (fun p => if x = p then (1:ℕ) else 0)).sum = 0 := by
  induction l with
  | nil => rfl
  | cons a t ih =>
    rw [List.mem_cons, not_or] at h
    simp only [List.map_cons, List.sum_cons]
    rw [if_neg h.1, ih h.2]

theorem sum_indicator_nodup (l : List String) (hnd : l.Nodup) (x : String) (hx : x ∈ l) :
    (l.map (fun p => if x = p then (1:ℕ) else 0)).sum = 1 := by
  induction l with
  | nil => cases hx
  | cons a t ih =>
    rw [List.nodup_cons] at hnd
    simp only [List.map_cons, List.sum_cons]
    rcases List.mem_cons.mp hx with rfl | hxt
    · rw [if_pos rfl, sum_indicator_not_mem t x hnd.1]
    · have hxa : ¬(x = a) := fun hcontra => hnd.1 (hcontra ▸ hxt)
      rw [if_neg hxa, ih hnd.2 hxt]

theorem counts_region_cons (row : CleanRow) (rows : List CleanRow) (reg : String) :
    counts_region (row :: rows) reg
      = counts_region rows reg + (if row.region = reg then 1 else 0) := by
  unfold counts_region
  rw [List.countP_cons]
  congr 1
  by_cases h : row.region = reg <;> simp [h]

theorem counts_prov_cons (row : CleanRow) (rows : List CleanRow) (reg p : String) :
    counts_prov (row :: rows) reg p
      = counts_prov rows reg p
        + (if row.region = reg ∧ row.provinceName = p then 1 else 0) := by
  unfold counts_prov
  rw [List.countP_cons]
  congr 1
  by_cases h1 : row.region = reg <;> by_cases h2 : row.provinceName = p <;> simp [h1, h2]

theorem counts_region_eq_sum_members (rows : List CleanRow)
    (hrows : ∀ row ∈ rows, province_to_region row.provinceName = some row.region)
    (reg : String) (hreg : reg ∈ REGIONS) :
    counts_region rows reg
      = ((regionMembers reg).map (fun p => counts_prov rows reg p)).sum := by
  induction rows with
  | nil =>
    have hz : ∀ p : String, counts_prov [] reg p = 0 := fun p => rfl
    simp [counts_region, hz]
  | cons row rows ih =>
    have hrow := hrows row (List.mem_cons_self row rows)
    have hrest : ∀ q ∈ rows, province_to_region q.provinceName = some q.region :=
      fun q hq => hrows q (List.mem_cons_of_mem row hq)
    rw [counts_region_cons, ih hrest]
    have hmap : (regionMembers reg).map (fun p => counts_prov (row :: rows) reg p)
        = (regionMembers reg).map (fun p => counts_prov rows reg p
            + (if row.region = reg ∧ row.provinceName = p then 1 else 0)) :=
      List.map_congr_left (fun p _ => counts_prov_cons row rows reg p)
    rw [hmap, sum_map_add_nat]
    congr 1
    by_cases hR : row.region = reg
    · have hmem : row.provinceName ∈ regionMembers reg :=
        (mem_regionMembers_iff reg hreg row.provinceName).mpr (hR ▸ hrow)
      simp only [hR, true_and, if_true]
      rw [sum_indicator_nodup (regionMembers reg) (regionMembers_nodup reg) _ hmem]
    · simp [hR]

/-- C5: for every collection of raw input records, each region's displayed
count (the value `counts_region` puts on its marker) equals the sum of the
displayed counts of that region's member provinces. -/
theorem region_count_eq_sum_of_province_counts (raw : List RawRecord) (reg : String)
    (hreg : reg ∈ REGIONS) :
    counts_region (cleanRows raw) reg
      = ((regionMembers reg).map (fun p => counts_prov (cleanRows raw) reg p)).sum :=
  counts_region_eq_sum_members (cleanRows raw) (cleanRows_region raw) reg hreg

/-- A concrete raw record (a DFO site in Ontario with category 1), used by
the data-side witnesses. -/
def rawA : RawRecord :=
  { siteUser := "DFO", latitude := some 50, longitude := some (-100),
    category := some 1, province := "ON" }

/-- A concrete raw record with a missing category cell, used by the
data-side witnesses. -/
def rawC : RawRecord :=
  { siteUser := "SCH", latitude := some 60, longitude := some (-120),
    category := none, province := "BC" }

theorem region_count_eq_sum_witness :
    counts_region (cleanRows [rawA, rawC]) "Green Region"
      = ((regionMembers "Green Region").map
          (fun p => counts_prov (cleanRows [rawA, rawC]) "Green Region" p)).sum :=
  region_count_eq_sum_of_province_counts [rawA, rawC] "Green Region" (by decide)

/-! ## Claim C6 -/

theorem heatWeight_of_raw (c : Option ℚ) :
    heatWeight (c.getD 0) = if c = some 1 then 1 else 1/5 := by
  rcases c with - | v
  · simp only [Option.getD_none, heatWeight]
    norm_num
    simp
  · simp only [Option.getD_some, heatWeight, Option.some.injEq]

/-- C6: each heat-layer point's density weight is exactly 1 when the raw
record's category numerically equals 1 and exactly 0.2 (= 1/5) otherwise —
a category of 0, of 2, or a missing/non-numeric cell (normalized to 0 by
the cleaning) all give 0.2; every weight appearing in a province's heat
data is one of the two tiers, and every cleaned row of the province
contributes its point. -/
theorem heat_weight_two_tier (raw : List RawRecord) (prov : String) :
    (∀ e ∈ heat_data (cleanRows raw) prov, e.2.2 = 1 ∨ e.2.2 = 1/5)
    ∧ (∀ (r : RawRecord) (row : CleanRow), cleanRow r = some row →
        heatWeight row.category = if r.category = some 1 then 1 else 1/5)
    ∧ (∀ row ∈ cleanRows raw, row.provinceName = prov →
        (row.lat, row.lon, heatWeight row.category) ∈ heat_data (cleanRows raw) prov) := by
  refine ⟨?_, ?_, ?_⟩
  · intro e he
    unfold heat_data at he
    rw [List.mem_map] at he
    obtain ⟨row, -, rfl⟩ := he
    unfold heatWeight
    by_cases h : row.category = 1 <;> simp [h]
  · intro r row h
    rw [(cleanRow_spec h).2.1]
    exact heatWeight_of_raw r.category
  · intro row hrow hprov
    unfold heat_data
    rw [List.mem_map]
    refine ⟨row, ?_, rfl⟩
    unfold siteRows
    rw [List.mem_filter]
    exact ⟨hrow, by simp [hprov]⟩

theorem cleanRow_rawA :
    cleanRow rawA = some ⟨rawA, 50, -100, 1, "Ontario", "Green Region"⟩ := by
  have hb : (417:ℚ)/10 ≤ 50 ∧ (50:ℚ) ≤ 831/10 ∧ (-141:ℚ) ≤ -100 ∧ (-100:ℚ) ≤ -(263/5) := by
    norm_num
  have hu : rawA.siteUser ∈ valid_users := by decide
  have hlk : CODE_TO_NAME.lookup (normCode rawA.province) = some "Ontario" := by decide
  have hrg : province_to_region "Ontario" = some "Green Region" := by decide
  unfold cleanRow
  rw [if_pos hu]
  simp only [show rawA.latitude = some (50:ℚ) from rfl,
    show rawA.longitude = some (-100:ℚ) from rfl, Option.some_bind]
  rw [if_pos hb]
  simp only [hlk, hrg, Option.some_bind]
  rfl

theorem cleanRow_rawC :
    cleanRow rawC = some ⟨rawC, 60, -120, 0, "British Columbia", "Purple Region"⟩ := by
  have hb : (417:ℚ)/10 ≤ 60 ∧ (60:ℚ) ≤ 831/10 ∧ (-141:ℚ) ≤ -120 ∧ (-120:ℚ) ≤ -(263/5) := by
    norm_num
  have hu : rawC.siteUser ∈ valid_users := by decide
  have hlk : CODE_TO_NAME.lookup (normCode rawC.province) = some "British Columbia" := by
    decide
  have hrg : province_to_region "British Columbia" = some "Purple Region" := by decide
  unfold cleanRow
  rw [if_pos hu]
  simp only [show rawC.latitude = some (60:ℚ) from rfl,
    show rawC.longitude = some (-120:ℚ) from rfl, Option.some_bind]
  rw [if_pos hb]
  simp only [hlk, hrg, Option.some_bind]
  rfl

theorem heat_weight_two_tier_witness :
    heatWeight (CleanRow.mk rawA 50 (-100) 1 "Ontario" "Green Region").category
        = (if rawA.category = some 1 then (1:ℚ) else 1/5)
    ∧ heatWeight (CleanRow.mk rawC 60 (-120) 0 "British Columbia" "Purple Region").category
        = (if rawC.category = some 1 then (1:ℚ) else 1/5) :=
  ⟨(heat_weight_two_tier [rawA] "Ontario").2.1 rawA
      ⟨rawA, 50, -100, 1, "Ontario", "Green Region"⟩ cleanRow_rawA,
   (heat_weight_two_tier [rawC] "British Columbia").2.1 rawC
      ⟨rawC, 60, -120, 0, "British Columbia", "Purple Region"⟩ cleanRow_rawC⟩

/-! ## Claim C7 -/

/-- C7: a province (or region) present in the boundary data with zero
matching cleaned site records still gets a count marker displaying 0 — the
entity is retained on the map rather than omitted. -/
theorem zero_count_entities_retained (boundaryNames : List String) (rows : List CleanRow) :
    (∀ p ∈ prov_gdf boundaryNames,
      (∀ row ∈ rows, ¬(row.region = p.region ∧ row.provinceName = p.name)) →
      (p.name, p.region, 0) ∈ prov_count_markers (prov_gdf boundaryNames) rows)
    ∧ (∀ reg ∈ regionsOf (prov_gdf boundaryNames),
      (∀ row ∈ rows, row.region ≠ reg) →
      (reg, 0) ∈ region_count_markers (prov_gdf boundaryNames) rows) := by
  constructor
  · intro p hp hnone
    have hcount : counts_prov rows p.region p.name = 0 := by
      unfold counts_prov
      rw [List.countP_eq_zero]
      intro row hrow
      simp only [Bool.and_eq_true, beq_iff_eq]
      exact fun hcontra => hnone row hrow hcontra
    unfold prov_count_markers
    rw [List.mem_map]
    exact ⟨p, hp, by rw [hcount]⟩
  · intro reg hreg hnone
    have hcount : counts_region rows reg = 0 := by
      unfold counts_region
      rw [List.countP_eq_zero]
      intro row hrow
      simp only [beq_iff_eq]
      exact hnone row hrow
    unfold region_count_markers
    rw [List.mem_map]
    exact ⟨reg, hreg, by rw [hcount]⟩

theorem zero_count_entities_retained_witness :
    ("Ontario", "Green Region", 0) ∈ prov_count_markers (prov_gdf ["Ontario"]) [] :=
  (zero_count_entities_retained ["Ontario"] []).1 ⟨"Ontario", "Green Region"⟩
    (by decide) (fun row h => absurd h (List.not_mem_nil row))

/-! ## Claim C10 -/

/-- C10: a raw record whose site-user tag is not one of exactly `DFO`,
`Shared-DFO`, `SCH` is dropped by the cleaning before aggregation, so it
contributes to no region count, no province count, no heat layer, and no
marker cluster: removing it from the raw input changes none of them. -/
theorem invalid_user_excluded (raw₁ raw₂ : List RawRecord) (r : RawRecord)
    (h : r.siteUser ∉ valid_users) :
    cleanRows (raw₁ ++ r :: raw₂) = cleanRows (raw₁ ++ raw₂)
    ∧ (∀ reg, counts_region (cleanRows (raw₁ ++ r :: raw₂)) reg
        = counts_region (cleanRows (raw₁ ++ raw₂)) reg)
    ∧ (∀ reg p, counts_prov (cleanRows (raw₁ ++ r :: raw₂)) reg p
        = counts_prov (cleanRows (raw₁ ++ raw₂)) reg p)
    ∧ (∀ prov, heat_data (cleanRows (raw₁ ++ r :: raw₂)) prov
        = heat_data (cleanRows (raw₁ ++ raw₂)) prov)
    ∧ (∀ prov, cluster_markers (cleanRows (raw₁ ++ r :: raw₂)) prov
        = cluster_markers (cleanRows (raw₁ ++ raw₂)) prov) := by
  have hnone : cleanRow r = none := by
    unfold cleanRow
    rw [if_neg h]
  have hmain : cleanRows (raw₁ ++ r :: raw₂) = cleanRows (raw₁ ++ raw₂) := by
    unfold cleanRows
    simp [List.filterMap_append, List.filterMap_cons, hnone]
  exact ⟨hmain, fun reg => by rw [hmain], fun reg p => by rw [hmain],
    fun prov => by rw [hmain], fun prov => by rw [hmain]⟩

/-- A concrete raw record with a site-user tag outside the valid set, used
by the C10 witness. -/
def rawX : RawRecord :=
  { siteUser := "Contractor", latitude := some 50, longitude := some (-100),
    category := some 1, province := "ON" }

theorem invalid_user_excluded_witness :
    cleanRows ([] ++ rawX :: []) = cleanRows ([] ++ []) :=
  (invalid_user_excluded [] [] rawX (by decide)).1

end HeatMap
